import Mathlib

/-!
Verification development for the `aiquota` quota-aggregation tool.

The Go sources are shallowly embedded as follows.

* `float64` values are idealized as `GoFloat`: either NaN, one of the two
  infinities, or an exact rational.  The quota percentages the program
  manipulates are small decimal numbers, for which rational arithmetic is the
  intended real-number semantics of the spec.
* Go's `time` package (an external collaborator of the repository) is modelled
  by an explicit proleptic-Gregorian calendar on `ℤ` seconds since the Unix
  epoch, with RFC3339 rendering and parsing restricted to the `Z`-suffixed UTC
  form that `time.Time.Format(time.RFC3339)` emits for UTC instants.
* `gjson` results (an external collaborator) are modelled by `JsonValue`
  together with the library's documented numeric coercion (`Result.Float`):
  strings are run through a decimal parser and coerce to `0` on failure,
  booleans to `0`/`1`, and anything else to `0`.
* The current instant, read by `time.Until` inside `helpers.FormatTimeUntil`,
  is threaded as an explicit `now` parameter, per the injectable-clock
  interface of the spec.
* The aggregation engine `run` in `cmd/aiquota/main.go` launches one goroutine
  per credentialed provider and joins on all of them; it is embedded as a pure
  function from the credential set and the three adapter outcomes to the run
  outcome.  The slice of warnings is collected here in program order
  (Copilot, Z.ai, Codex); the Go scheduler may interleave the appends, which
  affects only the order, not the multiset, of warnings.
-/

/-- Idealized `float64`: NaN, infinities, or an exact rational. -/
inductive GoFloat where
  | nan
  | posInf
  | negInf
  | fin (q : ℚ)
deriving DecidableEq

/-- Go `math.Round`: round half away from zero. -/
def goRound (q : ℚ) : ℤ :=
  if 0 ≤ q then ⌊q + 1 / 2⌋ else -⌊-q + 1 / 2⌋

/-- Go `int64(v)` conversion of a finite float: truncation toward zero
(`Int.div` is T-division, matching the conversion's rounding). -/
def goTrunc (q : ℚ) : ℤ :=
  Int.tdiv q.num q.den

/-- `helpers.ClampPercent`: NaN and infinities become `0`; otherwise round to
two decimals and clamp into `[0, 100]`. -/
def ClampPercent : GoFloat → ℚ
  | .nan => 0
  | .posInf => 0
  | .negInf => 0
  | .fin q => min 100 (max 0 ((goRound (q * 100) : ℚ) / 100))

/-- Go `a - b` on `float64`, with NaN and infinity propagation. -/
def GoFloat.sub : GoFloat → GoFloat → GoFloat
  | .nan, _ => .nan
  | _, .nan => .nan
  | .posInf, .posInf => .nan
  | .posInf, _ => .posInf
  | .negInf, .negInf => .nan
  | .negInf, _ => .negInf
  | .fin _, .posInf => .negInf
  | .fin _, .negInf => .posInf
  | .fin a, .fin b => .fin (a - b)

/-- Go built-in `max(0.0, v)` on `float64`: NaN if the argument is NaN. -/
def GoFloat.max0 : GoFloat → GoFloat
  | .nan => .nan
  | .posInf => .posInf
  | .negInf => .fin 0
  | .fin a => .fin (max 0 a)

/-! ## Calendar model (Go `time` package, external collaborator)

Instants are `ℤ` seconds since the Unix epoch, UTC.  `civilFromDays` and
`daysFromCivil` convert between an epoch day number and a proleptic-Gregorian
civil date, decomposing a 400-year era into centuries, 4-year groups and
years so that each step is a single Euclidean division. -/

/-- Epoch day number to civil date `(year, month, day)`.  Day `0` is
1970-01-01; the era offset `719468` shifts day `0` of the internal
March-based reckoning to 0000-03-01. -/
def civilFromDays (z : ℤ) : ℤ × ℕ × ℕ :=
  let zShift := z + 719468
  let era := zShift / 146097
  let doe := (zShift % 146097).toNat
  let c := min 3 (doe / 36524)
  let doc := doe - 36524 * c
  let q := doc / 1461
  let dq := doc - 1461 * q
  let r := min 3 (dq / 365)
  let doy := dq - 365 * r
  let yoe := 100 * c + 4 * q + r
  let mp := (5 * doy + 2) / 153
  let d := doy - (153 * mp + 2) / 5 + 1
  let m := if mp < 10 then mp + 3 else mp - 9
  (era * 400 + yoe + (if m ≤ 2 then 1 else 0), m, d)

/-- Civil date to epoch day number (inverse of `civilFromDays`). -/
def daysFromCivil (y : ℤ) (m d : ℕ) : ℤ :=
  let yAdj := y - (if m ≤ 2 then 1 else 0)
  let era := yAdj / 400
  let yoe := (yAdj % 400).toNat
  let mp := if 2 < m then m - 3 else m + 9
  let doy := (153 * mp + 2) / 5 + d - 1
  let doe := 365 * yoe + yoe / 4 - yoe / 100 + doy
  era * 146097 + (doe : ℤ) - 719468

/-- Gregorian leap-year predicate, as in Go's `time` package. -/
def isLeap (y : ℤ) : Bool :=
  y % 4 == 0 && (y % 100 != 0 || y % 400 == 0)

/-- Length of a month, used by the RFC3339 parser's validity check. -/
def daysInMonth (y : ℤ) (m : ℕ) : ℕ :=
  if m = 2 then (if isLeap y then 29 else 28)
  else if m = 4 ∨ m = 6 ∨ m = 9 ∨ m = 11 then 30
  else 31

/-- The decimal digit character for `n % 10`. -/
def digitChar (n : ℕ) : Char :=
  Char.ofNat (48 + n % 10)

/-- Numeric value of a digit character. -/
def digitVal (c : Char) : ℕ :=
  c.toNat - 48

/-- Two-digit zero-padded rendering (all call sites pass values below 100). -/
def pad2 (n : ℕ) : List Char :=
  [digitChar (n / 10), digitChar (n % 10)]

/-- Four-digit zero-padded rendering (call sites pass values below 10000). -/
def pad4 (n : ℕ) : List Char :=
  [digitChar (n / 1000), digitChar (n / 100 % 10), digitChar (n / 10 % 10), digitChar (n % 10)]

/-- RFC3339 rendering of a UTC instant, as produced by
`time.Time.UTC().Format(time.RFC3339)`: `YYYY-MM-DDTHH:MM:SSZ`.  Years
outside `[0, 9999]` fall back to a plain decimal rendering; the theorems
below only concern the four-digit range. -/
def formatInstant (t : ℤ) : String :=
  let days := t / 86400
  let sod := (t % 86400).toNat
  let c := civilFromDays days
  let yChars := if 0 ≤ c.1 ∧ c.1 < 10000 then pad4 c.1.toNat else (toString c.1).data
  String.mk (yChars ++ '-' :: pad2 c.2.1 ++ '-' :: pad2 c.2.2
    ++ 'T' :: pad2 (sod / 3600) ++ ':' :: pad2 (sod % 3600 / 60)
    ++ ':' :: pad2 (sod % 60) ++ ['Z'])

/-- RFC3339 parsing of the `Z`-suffixed UTC form, as accepted by
`time.Parse(time.RFC3339, s)`, including the calendar validity check.
Any string not of this exact shape is unparsable (`none`). -/
def parseRFC3339 (s : String) : Option ℤ :=
  match s.data with
  | [y1, y2, y3, y4, a1, m1, m2, a2, d1, d2, a3, h1, h2, a4, n1, n2, a5, s1, s2, a6] =>
    if a1 = '-' ∧ a2 = '-' ∧ a3 = 'T' ∧ a4 = ':' ∧ a5 = ':' ∧ a6 = 'Z'
        ∧ y1.isDigit ∧ y2.isDigit ∧ y3.isDigit ∧ y4.isDigit
        ∧ m1.isDigit ∧ m2.isDigit ∧ d1.isDigit ∧ d2.isDigit
        ∧ h1.isDigit ∧ h2.isDigit ∧ n1.isDigit ∧ n2.isDigit
        ∧ s1.isDigit ∧ s2.isDigit then
      let y := 1000 * digitVal y1 + 100 * digitVal y2 + 10 * digitVal y3 + digitVal y4
      let mo := 10 * digitVal m1 + digitVal m2
      let d := 10 * digitVal d1 + digitVal d2
      let h := 10 * digitVal h1 + digitVal h2
      let mi := 10 * digitVal n1 + digitVal n2
      let sec := 10 * digitVal s1 + digitVal s2
      if 1 ≤ mo ∧ mo ≤ 12 ∧ 1 ≤ d ∧ d ≤ daysInMonth (y : ℤ) mo
          ∧ h ≤ 23 ∧ mi ≤ 59 ∧ sec ≤ 59 then
        some (86400 * daysFromCivil (y : ℤ) mo d + 3600 * (h : ℤ) + 60 * mi + sec)
      else none
    else none
  | _ => none

/-! ## `internal/helpers` -/

/-- `helpers.FormatTimeUntil`, with the current instant `now` made an explicit
parameter in place of the `time.Until` clock read. -/
def FormatTimeUntil (now : ℤ) (dateISO : String) : String :=
  match parseRFC3339 dateISO with
  | none => "unknown"
  | some target =>
    let diff := target - now
    if diff ≤ 0 then "now"
    else
      let totalMinutes := (diff / 60).toNat
      let days := totalMinutes / 1440
      let hours := totalMinutes % 1440 / 60
      let minutes := totalMinutes % 60
      if 0 < days then toString days ++ "d " ++ toString hours ++ "h"
      else if 0 < hours then toString hours ++ "h " ++ toString minutes ++ "m"
      else toString minutes ++ "m"

/-- `helpers.UnixSecondsToISO`. -/
def UnixSecondsToISO : GoFloat → String
  | .nan => "unknown"
  | .posInf => "unknown"
  | .negInf => "unknown"
  | .fin q => formatInstant (goTrunc q)

/-- `helpers.UnixMillisToISO` (`time.UnixMilli(int64(v))`, rendered at
whole-second precision). -/
def UnixMillisToISO : GoFloat → String
  | .nan => "unknown"
  | .posInf => "unknown"
  | .negInf => "unknown"
  | .fin q => formatInstant (goTrunc q / 1000)

/-! ## `gjson` value model (external collaborator) -/

/-- A `gjson.Result` as consumed by this repository: absent, JSON null, a
number, a string, a boolean, or any other JSON shape. -/
inductive JsonValue where
  | missing
  | null
  | num (v : GoFloat)
  | str (s : String)
  | boolean (b : Bool)
  | other
deriving DecidableEq

/-- Value of an all-digit character list, `none` if empty or non-digit. -/
def digitsVal? (cs : List Char) : Option ℕ :=
  if cs = [] ∨ ¬ cs.all Char.isDigit then none
  else some (cs.foldl (fun n c => 10 * n + (c.toNat - 48)) 0)

/-- Model of Go `strconv.ParseFloat` on the plain decimal forms
(`[+-]?digits[.digits]?`) that quota responses can contain; any other string
fails to parse. -/
def goParseFloat (s : String) : Option ℚ :=
  let signed : ℚ × List Char :=
    match s.data with
    | '-' :: cs => (-1, cs)
    | '+' :: cs => (1, cs)
    | cs => (1, cs)
  let intPart := signed.2.takeWhile (fun c => c != '.')
  match signed.2.dropWhile (fun c => c != '.') with
  | [] => (digitsVal? intPart).map (fun n => signed.1 * n)
  | _ :: fracPart =>
    match digitsVal? intPart, digitsVal? fracPart with
    | some n, some f =>
      some (signed.1 * ((n : ℚ) + (f : ℚ) / (10 ^ fracPart.length)))
    | _, _ => none

/-- `gjson.Result.Float`: numbers pass through, strings go through
`strconv.ParseFloat` with the error ignored (so unparsable strings coerce to
`0`), `true` is `1`, and every other shape is `0`. -/
def JsonValue.toFloat : JsonValue → GoFloat
  | .num v => v
  | .str s => .fin ((goParseFloat s).getD 0)
  | .boolean true => .fin 1
  | _ => .fin 0

/-! ## Provider adapters -/

/-- What an adapter does first when invoked: refuse without touching the
network, or build and send its HTTP request. -/
inductive AdapterAction where
  | failImmediately (msg : String)
  | sendRequest
deriving DecidableEq

/-- `copilot.GetQuota` has no credential guard: it always builds and sends
its request (a `nil` key is rendered as the empty string by `stringValue`). -/
def copilotFirstAction (_key : Option String) : AdapterAction :=
  .sendRequest

/-- The guard at the top of `zai.GetQuota`. -/
def zaiFirstAction (key : Option String) : AdapterAction :=
  match key with
  | none => .failImmediately "missing Z.ai API key in credentials"
  | some k =>
    if k = "" then .failImmediately "missing Z.ai API key in credentials"
    else .sendRequest

/-- The guard at the top of `codex.GetQuota`. -/
def codexFirstAction (key : Option String) : AdapterAction :=
  match key with
  | none => .failImmediately "missing Codex API key in credentials"
  | some k =>
    if k = "" then .failImmediately "missing Codex API key in credentials"
    else .sendRequest

/-- `copilot.Quota`. -/
structure CopilotQuota where
  accountUser : String
  accountType : String
  requestsTotal : ℤ
  requestsUsed : ℤ
  requestsUsedPercent : GoFloat
  requestsRemaining : ℤ
  requestsRemainingPercent : GoFloat
  resetAt : String
  resetIn : String
deriving DecidableEq

/-- The `Quota` built by `copilot.GetQuota` from the fields it extracts out of
a 2xx response body (lines 59–76 of the adapter). -/
def copilotQuotaOf (now : ℤ) (login sku : String) (total remaining : ℤ)
    (remainingPercent : GoFloat) (resetAt : String) : CopilotQuota :=
  let used := max 0 (total - remaining)
  let usedPercent := GoFloat.max0 (GoFloat.sub (.fin 100) remainingPercent)
  { accountUser := login
    accountType := sku
    requestsTotal := total
    requestsUsed := used
    requestsUsedPercent := usedPercent
    requestsRemaining := remaining
    requestsRemainingPercent := remainingPercent
    resetAt := resetAt
    resetIn := FormatTimeUntil now resetAt }

/-- `codex.RateLimitWindow` (`nil` pointers become `none`). -/
structure RateLimitWindow where
  usedPercent : Option ℚ
  remainingPercent : Option ℚ
  resetAt : Option String
  resetIn : Option String
deriving DecidableEq

/-- The two fields of a Codex rate-limit window object that `parseWindow`
reads. -/
structure CodexWindowSrc where
  used_percent : JsonValue
  reset_at : JsonValue
deriving DecidableEq

/-- `codex.unixSecondsResultToISO`. -/
def unixSecondsResultToISO (value : JsonValue) : String :=
  match value with
  | .missing => "unknown"
  | .null => "unknown"
  | v => UnixSecondsToISO v.toFloat

/-- `codex.parseWindow`. -/
def parseWindow (now : ℤ) (window : CodexWindowSrc) : RateLimitWindow :=
  let usedPercent := ClampPercent window.used_percent.toFloat
  let remainingPercent := ClampPercent (.fin (100 - usedPercent))
  let resetAt := unixSecondsResultToISO window.reset_at
  let resetIn := FormatTimeUntil now resetAt
  { usedPercent := some usedPercent
    remainingPercent := some remainingPercent
    resetAt := some resetAt
    resetIn := some resetIn }

/-- `codex.Quota`. -/
structure CodexQuota where
  accountEmail : String
  accountType : String
  rateLimitPrimaryWindow : RateLimitWindow
  rateLimitSecondaryWindow : RateLimitWindow
  codeReviewPrimaryWindow : RateLimitWindow
deriving DecidableEq

/-- The `Quota` built by `codex.GetQuota` from a 2xx response: each window
source is `none` when the corresponding JSON subobject is absent or null
(the `Exists`/`Null` guards on lines 71–84), leaving the zero-value window. -/
def codexQuotaOf (now : ℤ) (email planType : String)
    (primary secondary codeReview : Option CodexWindowSrc) : CodexQuota :=
  { accountEmail := email
    accountType := planType
    rateLimitPrimaryWindow := (primary.map (parseWindow now)).getD ⟨none, none, none, none⟩
    rateLimitSecondaryWindow := (secondary.map (parseWindow now)).getD ⟨none, none, none, none⟩
    codeReviewPrimaryWindow := (codeReview.map (parseWindow now)).getD ⟨none, none, none, none⟩ }

/-- `zai.QuotaWindow`. -/
structure ZaiQuotaWindow where
  usedPercent : ℚ
  remainingPercent : ℚ
  resetAt : String
  resetIn : String
deriving DecidableEq

/-- `zai.MCPDetail`. -/
structure MCPDetail where
  modelCode : String
  usage : GoFloat
deriving DecidableEq

/-- One element of `data.limits` as accessed by `zai.GetQuota`: its `type`
tag, `percentage`, `nextResetTime`, and `usageDetails` fields. -/
structure ZaiLimit where
  limitType : String
  percentage : JsonValue
  nextResetTime : JsonValue
  usageDetails : List MCPDetail
deriving DecidableEq

/-- `zai.findLimitByType`: first element with the given type tag; a miss
yields the empty `gjson.Result`, on which every field read is `missing`. -/
def findLimitByType (limits : List ZaiLimit) (limitType : String) : Option ZaiLimit :=
  limits.find? (fun l => l.limitType == limitType)

/-- `percentage` of an optional limit (missing limit ⇒ missing field). -/
def limitPercentage (l : Option ZaiLimit) : JsonValue :=
  (l.map ZaiLimit.percentage).getD .missing

/-- `nextResetTime` of an optional limit (missing limit ⇒ missing field). -/
def limitNextResetTime (l : Option ZaiLimit) : JsonValue :=
  (l.map ZaiLimit.nextResetTime).getD .missing

/-- `usageDetails` of an optional limit (missing limit ⇒ empty array). -/
def limitUsageDetails (l : Option ZaiLimit) : List MCPDetail :=
  (l.map ZaiLimit.usageDetails).getD []

/-- `zai.maskToken` (byte slicing modelled as character slicing; the keys
involved are ASCII). -/
def maskToken (token : String) : String :=
  if token.length ≤ 8 then "********"
  else String.mk (token.data.take 6) ++ "..." ++ String.mk (token.data.drop (token.length - 4))

/-- `zai.unixMillisResultToISO`. -/
def unixMillisResultToISO (value : JsonValue) : String :=
  match value with
  | .missing => "unknown"
  | .null => "unknown"
  | v => UnixMillisToISO v.toFloat

/-- `zai.MCPQuota`. -/
structure ZaiMCPQuota where
  window : ZaiQuotaWindow
  details : List MCPDetail
deriving DecidableEq

/-- `zai.Quota`. -/
structure ZaiQuota where
  accountID : String
  accountType : String
  tokenQuota : ZaiQuotaWindow
  mcpQuota : ZaiMCPQuota
deriving DecidableEq

/-- The `Quota` built by `zai.GetQuota` from a successful response body
(lines 80–108): `apiKey` is the credential that passed the guard, `level` is
`data.level`, and `limits` is the decoded `data.limits` array. -/
def zaiQuotaOf (now : ℤ) (apiKey level : String) (limits : List ZaiLimit) : ZaiQuota :=
  let tokenLimit := findLimitByType limits "TOKENS_LIMIT"
  let timeLimit := findLimitByType limits "TIME_LIMIT"
  let tokenResetAt := unixMillisResultToISO (limitNextResetTime tokenLimit)
  let tokenUsedPercent := ClampPercent (limitPercentage tokenLimit).toFloat
  let mcpResetAt := unixMillisResultToISO (limitNextResetTime timeLimit)
  let mcpUsedPercent := ClampPercent (limitPercentage timeLimit).toFloat
  { accountID := maskToken apiKey
    accountType := level
    tokenQuota :=
      { usedPercent := tokenUsedPercent
        remainingPercent := ClampPercent (.fin (100 - tokenUsedPercent))
        resetAt := tokenResetAt
        resetIn := FormatTimeUntil now tokenResetAt }
    mcpQuota :=
      { window :=
          { usedPercent := mcpUsedPercent
            remainingPercent := ClampPercent (.fin (100 - mcpUsedPercent))
            resetAt := mcpResetAt
            resetIn := FormatTimeUntil now mcpResetAt }
        details := limitUsageDetails timeLimit } }

/-! ## Aggregation engine (`cmd/aiquota/main.go`) -/

/-- `credentials.Credentials` (each `*string` becomes an `Option String`). -/
structure Credentials where
  copilotAPIKey : Option String
  zaiAPIKey : Option String
  codexAPIKey : Option String
  codexAccountID : Option String
deriving DecidableEq

/-- Go `strings.TrimSpace`, modelled on the character list: drop whitespace
from both ends. -/
def goTrimSpace (s : String) : String :=
  String.mk (((s.data.dropWhile Char.isWhitespace).reverse.dropWhile
    Char.isWhitespace).reverse)

/-- `main.hasCredential`: non-nil and non-blank after trimming. -/
def hasCredential : Option String → Bool
  | none => false
  | some v => goTrimSpace v != ""

/-- Outcome of one `run`: a returned error, or the report handed to
`printReport` (the three optional quotas plus the warnings slice). -/
inductive RunOutcome where
  | failure (msg : String)
  | report (copilotOut : Option CopilotQuota) (zaiOut : Option ZaiQuota)
      (codexOut : Option CodexQuota) (warnings : List String)
deriving DecidableEq

/-- `main.run`, embedded as a pure function of the credential set and the
three adapter outcomes.  Credential loading and report printing are the
external collaborators; the goroutine fan-out/join is sequentialized in
program order. -/
def run (creds : Credentials) (copilotRes : Except String CopilotQuota)
    (zaiRes : Except String ZaiQuota) (codexRes : Except String CodexQuota) : RunOutcome :=
  let hasCopilot := hasCredential creds.copilotAPIKey
  let hasZAI := hasCredential creds.zaiAPIKey
  let hasCodex := hasCredential creds.codexAPIKey
  if !hasCopilot && !hasZAI && !hasCodex then
    .failure "no provider credentials found in auth.json"
  else
    let copilotOut := if hasCopilot then copilotRes.toOption else none
    let zaiOut := if hasZAI then zaiRes.toOption else none
    let codexOut := if hasCodex then codexRes.toOption else none
    let warnings :=
      (if hasCopilot then
        match copilotRes with
        | .error e => ["GitHub Copilot: " ++ e]
        | .ok _ => []
      else []) ++
      (if hasZAI then
        match zaiRes with
        | .error e => ["Z.ai: " ++ e]
        | .ok _ => []
      else []) ++
      (if hasCodex then
        match codexRes with
        | .error e => ["OpenAI Codex: " ++ e]
        | .ok _ => []
      else [])
    if copilotOut.isNone && zaiOut.isNone && codexOut.isNone then
      .failure "could not fetch quota data from any provider"
    else
      .report copilotOut zaiOut codexOut warnings

/-- The providers whose adapters `run` dispatches goroutines for. -/
def dispatchedProviders (creds : Credentials) : List String :=
  (if hasCredential creds.copilotAPIKey then ["GitHub Copilot"] else []) ++
  (if hasCredential creds.zaiAPIKey then ["Z.ai"] else []) ++
  (if hasCredential creds.codexAPIKey then ["OpenAI Codex"] else [])

/-- Spec-side view: the quota slot a provider contributes to the report. -/
def providerOut {α : Type} (has : Bool) (res : Except String α) : Option α :=
  if has then res.toOption else none

/-- Spec-side view: the labeled warning a provider contributes. -/
def providerWarnings {α : Type} (label : String) (has : Bool)
    (res : Except String α) : List String :=
  if has then
    match res with
    | .error e => [label ++ ": " ++ e]
    | .ok _ => []
  else []

/-! ## Helper lemmas: `ClampPercent` -/

theorem clampPercent_nonneg (v : GoFloat) : 0 ≤ ClampPercent v := by
  cases v with
  | nan => simp [ClampPercent]
  | posInf => simp [ClampPercent]
  | negInf => simp [ClampPercent]
  | fin q => exact le_min (by norm_num) (le_max_left 0 _)

theorem clampPercent_le_100 (v : GoFloat) : ClampPercent v ≤ 100 := by
  cases v with
  | nan => simp [ClampPercent]
  | posInf => simp [ClampPercent]
  | negInf => simp [ClampPercent]
  | fin q => exact min_le_left _ _

theorem clampPercent_two_decimals (v : GoFloat) :
    ∃ n : ℤ, ClampPercent v = (n : ℚ) / 100 := by
  cases v with
  | nan => exact ⟨0, by simp [ClampPercent]⟩
  | posInf => exact ⟨0, by simp [ClampPercent]⟩
  | negInf => exact ⟨0, by simp [ClampPercent]⟩
  | fin q =>
    refine ⟨min 10000 (max 0 (goRound (q * 100))), ?_⟩
    show min 100 (max 0 ((goRound (q * 100) : ℚ) / 100)) = _
    set k := goRound (q * 100) with hk
    rcases le_total k 0 with h0 | h0
    · have hq : (k : ℚ) / 100 ≤ 0 :=
        div_nonpos_of_nonpos_of_nonneg (by exact_mod_cast h0) (by norm_num)
      rw [max_eq_left hq, min_eq_right (by norm_num : (0:ℚ) ≤ 100),
        max_eq_left h0, min_eq_right (by omega : (0:ℤ) ≤ 10000)]
      norm_num
    · have hqc : (0:ℚ) ≤ (k : ℚ) / 100 :=
        div_nonneg (by exact_mod_cast h0) (by norm_num)
      rw [max_eq_right hqc, max_eq_right h0]
      rcases le_total k 10000 with h1 | h1
      · rw [min_eq_right, min_eq_right h1]
        rw [div_le_iff₀ (by norm_num : (0:ℚ) < 100)]
        exact_mod_cast h1
      · rw [min_eq_left, min_eq_left h1]
        · norm_num
        · rw [le_div_iff₀ (by norm_num : (0:ℚ) < 100)]
          exact_mod_cast h1

theorem goRound_bounds (q : ℚ) (h0 : 0 ≤ q) (h1 : q ≤ 100) :
    0 ≤ goRound (q * 100) ∧ goRound (q * 100) ≤ 10000 := by
  have hq0 : (0:ℚ) ≤ q * 100 := by positivity
  rw [goRound, if_pos hq0]
  constructor
  · exact Int.le_floor.mpr (by push_cast; linarith)
  · have h : (⌊q * 100 + 1 / 2⌋ : ℤ) < 10001 := Int.floor_lt.mpr (by push_cast; linarith)
    omega

theorem clampPercent_of_bounds (q : ℚ) (h0 : 0 ≤ q) (h1 : q ≤ 100) :
    ClampPercent (.fin q) = (goRound (q * 100) : ℚ) / 100 := by
  obtain ⟨hl, hr⟩ := goRound_bounds q h0 h1
  show min 100 (max 0 ((goRound (q * 100) : ℚ) / 100)) = _
  rw [max_eq_right (div_nonneg (by exact_mod_cast hl) (by norm_num))]
  rw [min_eq_right]
  rw [div_le_iff₀ (by norm_num : (0:ℚ) < 100)]
  exact_mod_cast hr

theorem goRound_int_sub (n : ℤ) (hn : 0 ≤ n) : goRound (n : ℚ) = n := by
  rw [goRound, if_pos (by exact_mod_cast hn)]
  rw [Int.floor_int_add]
  norm_num

theorem clampPercent_complement (q : ℚ) (h0 : 0 ≤ q) (h1 : q ≤ 100) :
    ClampPercent (.fin q) + ClampPercent (.fin (100 - ClampPercent (.fin q))) = 100 := by
  obtain ⟨hl, hr⟩ := goRound_bounds q h0 h1
  set k := goRound (q * 100) with hk
  have hu : ClampPercent (.fin q) = (k : ℚ) / 100 := clampPercent_of_bounds q h0 h1
  have harg : (100 : ℚ) - (k : ℚ) / 100 = ((10000 - k : ℤ) : ℚ) / 100 := by
    push_cast; ring
  have h2 : ClampPercent (.fin (100 - ClampPercent (.fin q)))
      = ((10000 - k : ℤ) : ℚ) / 100 := by
    rw [hu, harg]
    have hb0 : (0:ℚ) ≤ ((10000 - k : ℤ) : ℚ) / 100 := by
      apply div_nonneg _ (by norm_num)
      exact_mod_cast (by omega : (0:ℤ) ≤ 10000 - k)
    have hb1 : ((10000 - k : ℤ) : ℚ) / 100 ≤ 100 := by
      rw [div_le_iff₀ (by norm_num : (0:ℚ) < 100)]
      exact_mod_cast (by omega : (10000 - k : ℤ) ≤ 10000)
    rw [clampPercent_of_bounds _ hb0 hb1]
    rw [div_mul_cancel₀ _ (by norm_num : (100:ℚ) ≠ 0)]
    rw [goRound_int_sub _ (by omega)]
  rw [h2, hu]
  push_cast
  ring

/-! ## Helper lemmas: calendar -/

theorem eraDecomp (doe c doc q dq r doy yoe : ℕ)
    (hdoe : doe ≤ 146096)
    (hc : c = min 3 (doe / 36524))
    (hdoc : doc = doe - 36524 * c)
    (hq : q = doc / 1461)
    (hdq : dq = doc - 1461 * q)
    (hr : r = min 3 (dq / 365))
    (hdoy : doy = dq - 365 * r)
    (hyoe : yoe = 100 * c + 4 * q + r) :
    yoe ≤ 399
    ∧ 365 * yoe + yoe / 4 - yoe / 100 + doy = doe
    ∧ doy ≤ 365
    ∧ (doy = 365 → ((yoe + 1) % 4 = 0 ∧ ((yoe + 1) % 100 ≠ 0 ∨ yoe + 1 = 400)))
    ∧ (145731 ≤ doe → yoe = 399 ∧ doy = doe - 145731)
    ∧ (doe ≤ 145730 → yoe ≤ 398) := by
  have hc1 : c ≤ 3 ∧ 36524 * c ≤ doe ∧ doc ≤ 36524 ∧ (c < 3 → doc ≤ 36523)
      ∧ 36524 * c + doc = doe := by
    clear hyoe hdoy hr hdq hq
    subst hdoc hc
    omega
  have hq1 : q ≤ 24 ∧ 1461 * q ≤ doc ∧ dq ≤ 1460 ∧ 1461 * q + dq = doc := by
    clear hyoe hdoy hr hc hdoc
    subst hdq hq
    omega
  have hr1 : r ≤ 3 ∧ 365 * r ≤ dq ∧ doy ≤ 365 ∧ 365 * r + doy = dq
      ∧ (r < 3 → doy ≤ 364) ∧ (doy = 365 → r = 3 ∧ dq = 1460) := by
    clear hyoe hc hdoc hq hdq
    subst hdoy hr
    omega
  have hyid : 365 * yoe + yoe / 4 - yoe / 100 = 36524 * c + 1461 * q + 365 * r := by
    clear hc hdoc hq hdq hr hdoy
    subst hyoe
    obtain ⟨hcb, -⟩ := hc1
    obtain ⟨hqb, -⟩ := hq1
    obtain ⟨hrb, -⟩ := hr1
    omega
  clear hc hdoc hq hdq hr hdoy
  refine ⟨by clear hyid; omega, by omega, by clear hyid; omega, ?_, ?_, ?_⟩
  · clear hyid; omega
  · clear hyid; omega
  · clear hyid; omega

theorem monthDecomp (doy mp d m : ℕ)
    (hdoy : doy ≤ 365)
    (hmp : mp = (5 * doy + 2) / 153)
    (hd : d = doy - (153 * mp + 2) / 5 + 1)
    (hm : m = if mp < 10 then mp + 3 else mp - 9) :
    1 ≤ m ∧ m ≤ 12
    ∧ 1 ≤ d ∧ d ≤ 31
    ∧ (m ≤ 2 ↔ 10 ≤ mp)
    ∧ (if 2 < m then m - 3 else m + 9) = mp
    ∧ (153 * mp + 2) / 5 + d - 1 = doy
    ∧ (m = 4 ∨ m = 6 ∨ m = 9 ∨ m = 11 → d ≤ 30)
    ∧ (m = 2 → d ≤ 29 ∧ (d = 29 → doy = 365))
    ∧ (306 ≤ doy → m ≤ 2) ∧ (doy ≤ 305 → 3 ≤ m) := by
  have hmp1 : mp ≤ 11 ∧ (153 * mp + 2) / 5 ≤ doy
      ∧ (153 * mp + 2) / 5 + 30 ≥ doy
      ∧ (mp = 1 ∨ mp = 3 ∨ mp = 6 ∨ mp = 8 → (153 * mp + 2) / 5 + 29 ≥ doy)
      ∧ (mp = 11 → (153 * mp + 2) / 5 + 28 ≥ doy
          ∧ (doy = (153 * mp + 2) / 5 + 28 → doy = 365))
      ∧ (306 ≤ doy → 10 ≤ mp) ∧ (doy ≤ 305 → mp ≤ 9) := by
    clear hd hm
    subst hmp
    omega
  have hb : (153 * mp + 2) / 5 ≤ doy ∧ (153 * mp + 2) / 5 + 30 ≥ doy := ⟨hmp1.2.1, hmp1.2.2.1⟩
  rcases Nat.lt_or_ge mp 10 with hsplit | hsplit
  · rw [if_pos hsplit] at hm
    subst hm
    have h2m : ¬ (mp + 3 ≤ 2) := by omega
    refine ⟨by omega, by omega, by omega, by omega, by omega, ?_, by omega, ?_, by omega, ?_, by omega⟩
    · rw [if_pos (by omega : 2 < mp + 3)]
      omega
    · intro hcase
      have : mp = 1 ∨ mp = 3 ∨ mp = 6 ∨ mp = 8 := by omega
      have := hmp1.2.2.2.1 this
      omega
    · intro h306
      exact absurd (hmp1.2.2.2.2.2.1 h306) (by omega)
  · rw [if_neg (by omega)] at hm
    subst hm
    have hmp11 : mp = 10 ∨ mp = 11 := by omega
    refine ⟨by omega, by omega, by omega, by omega, by omega, ?_, by omega, by omega, ?_, by omega, ?_⟩
    · rw [if_neg (by omega : ¬ 2 < mp - 9)]
      omega
    · intro hm2
      have hmp11' : mp = 11 := by omega
      have := hmp1.2.2.2.2.1 hmp11'
      omega
    · intro h305
      have := hmp1.2.2.2.2.2.2 h305
      omega

theorem daysFromCivil_civilFromDays (z : ℤ) :
    daysFromCivil (civilFromDays z).1 (civilFromDays z).2.1 (civilFromDays z).2.2 = z := by
  have hmod : 0 ≤ (z + 719468) % 146097 ∧ (z + 719468) % 146097 ≤ 146096
      ∧ 146097 * ((z + 719468) / 146097) + (z + 719468) % 146097 = z + 719468 := by
    omega
  rw [civilFromDays]
  set era := (z + 719468) / 146097 with hEra
  set doe := ((z + 719468) % 146097).toNat with hDoe
  have hdoeB : doe ≤ 146096 := by omega
  have hdoeZ : (doe : ℤ) = (z + 719468) % 146097 := by omega
  set c := min 3 (doe / 36524) with hc
  set doc := doe - 36524 * c with hdoc
  set q := doc / 1461 with hq
  set dq := doc - 1461 * q with hdq
  set r := min 3 (dq / 365) with hr
  set doy := dq - 365 * r with hdoy
  set yoe := 100 * c + 4 * q + r with hyoe
  set mp := (5 * doy + 2) / 153 with hmp
  set d := doy - (153 * mp + 2) / 5 + 1 with hd
  set m := if mp < 10 then mp + 3 else mp - 9 with hm
  obtain ⟨hyoeB, hIdent, hdoyB, -, -, -⟩ :=
    eraDecomp doe c doc q dq r doy yoe hdoeB hc hdoc hq hdq hr hdoy hyoe
  obtain ⟨-, -, -, -, -, hmpBack, hdoyBack, -, -, -, -⟩ :=
    monthDecomp doy mp d m hdoyB hmp hd hm
  show daysFromCivil (era * 400 + (yoe : ℤ) + (if m ≤ 2 then 1 else 0)) m d = z
  rw [daysFromCivil]
  have hAdj : era * 400 + (yoe : ℤ) + (if m ≤ 2 then 1 else 0) - (if m ≤ 2 then 1 else 0)
      = era * 400 + (yoe : ℤ) := by ring
  rw [hAdj]
  have hEra400 : (era * 400 + (yoe : ℤ)) / 400 = era := by omega
  have hYoe400 : ((era * 400 + (yoe : ℤ)) % 400).toNat = yoe := by omega
  rw [hEra400, hYoe400, hmpBack, hdoyBack]
  omega

theorem isLeap_iff (y : ℤ) :
    isLeap y = true ↔ (y % 4 = 0 ∧ (y % 100 ≠ 0 ∨ y % 400 = 0)) := by
  simp [isLeap, Bool.and_eq_true, Bool.or_eq_true, beq_iff_eq, bne_iff_ne]

theorem civilFromDays_valid (zd : ℤ) (hlo : -719528 ≤ zd) (hhi : zd ≤ 2932896) :
    0 ≤ (civilFromDays zd).1 ∧ (civilFromDays zd).1 ≤ 9999
    ∧ 1 ≤ (civilFromDays zd).2.1 ∧ (civilFromDays zd).2.1 ≤ 12
    ∧ 1 ≤ (civilFromDays zd).2.2
    ∧ (civilFromDays zd).2.2 ≤ daysInMonth (civilFromDays zd).1 (civilFromDays zd).2.1 := by
  have hmod : 0 ≤ (zd + 719468) % 146097 ∧ (zd + 719468) % 146097 ≤ 146096
      ∧ 146097 * ((zd + 719468) / 146097) + (zd + 719468) % 146097 = zd + 719468 := by
    omega
  have heraB : -1 ≤ (zd + 719468) / 146097 ∧ (zd + 719468) / 146097 ≤ 24 := by omega
  rw [civilFromDays]
  set era := (zd + 719468) / 146097 with hEra
  set doe := ((zd + 719468) % 146097).toNat with hDoe
  have hdoeB : doe ≤ 146096 := by omega
  have hdoeZ : (doe : ℤ) = (zd + 719468) % 146097 := by omega
  set c := min 3 (doe / 36524) with hc
  set doc := doe - 36524 * c with hdoc
  set q := doc / 1461 with hq
  set dq := doc - 1461 * q with hdq
  set r := min 3 (dq / 365) with hr
  set doy := dq - 365 * r with hdoy
  set yoe := 100 * c + 4 * q + r with hyoe
  set mp := (5 * doy + 2) / 153 with hmp
  set d := doy - (153 * mp + 2) / 5 + 1 with hd
  set m := if mp < 10 then mp + 3 else mp - 9 with hm
  obtain ⟨hyoeB, hIdent, hdoyB, hLeap, hHi, hLo⟩ :=
    eraDecomp doe c doc q dq r doy yoe hdoeB hc hdoc hq hdq hr hdoy hyoe
  obtain ⟨hm1, hm12, hd1, hd31, hm2iff, hmpBack, hdoyBack, hd30, hdFeb, h306, h305⟩ :=
    monthDecomp doy mp d m hdoyB hmp hd hm
  clear hc hdoc hq hdq hr hdoy hmp hd hm
  refine ⟨?_, ?_, by exact_mod_cast hm1, by exact_mod_cast hm12, hd1, ?_⟩
  · show (0 : ℤ) ≤ era * 400 + (yoe : ℤ) + (if m ≤ 2 then 1 else 0)
    by_cases hm2 : m ≤ 2
    · rw [if_pos hm2]
      omega
    · rw [if_neg hm2]
      rcases Int.lt_or_le era 0 with hneg | hpos
      · have hera1 : era = -1 := by omega
        have h1 : 145731 ≤ doe := by omega
        obtain ⟨hy399, hdoyeq⟩ := hHi h1
        have h2 : 306 ≤ doy := by omega
        exact absurd (h306 h2) hm2
      · omega
  · show era * 400 + (yoe : ℤ) + (if m ≤ 2 then 1 else 0) ≤ 9999
    rcases Int.lt_or_le era 24 with hlt | h24
    · split <;> omega
    · have hera24 : era = 24 := by omega
      have hdoeTop : doe ≤ 146036 := by omega
      rcases Nat.lt_or_ge doe 145731 with hsm | hbig
      · have := hLo (by omega)
        split <;> omega
      · obtain ⟨hy399, hdoyeq⟩ := hHi hbig
        have hdoy305 : doy ≤ 305 := by omega
        have hm3 := h305 hdoy305
        rw [if_neg (by omega)]
        omega
  · show d ≤ daysInMonth (era * 400 + (yoe : ℤ) + (if m ≤ 2 then 1 else 0)) m
    by_cases hm2 : m = 2
    · rw [daysInMonth, if_pos hm2, if_pos (by omega : m ≤ 2)]
      obtain ⟨hle29, h29⟩ := hdFeb hm2
      rcases Nat.lt_or_ge d 29 with hlt | hge
      · split <;> omega
      · have hd29 : d = 29 := by omega
        have hdoy365 : doy = 365 := h29 hd29
        obtain ⟨hL4, hL100⟩ := hLeap hdoy365
        have hleap : isLeap (era * 400 + (yoe : ℤ) + 1) = true := by
          rw [isLeap_iff]
          rcases hL100 with h | h
          · refine ⟨by omega, Or.inl (by omega)⟩
          · refine ⟨by omega, Or.inr (by omega)⟩
        rw [hleap, if_pos rfl]
        omega
    · by_cases hm30 : m = 4 ∨ m = 6 ∨ m = 9 ∨ m = 11
      · rw [daysInMonth, if_neg hm2, if_pos hm30]
        exact hd30 hm30
      · rw [daysInMonth, if_neg hm2, if_neg hm30]
        exact hd31

theorem digitChar_isDigit (n : ℕ) : (digitChar n).isDigit = true := by
  have h : n % 10 < 10 := Nat.mod_lt _ (by norm_num)
  rw [digitChar]
  generalize n % 10 = k at h
  interval_cases k <;> decide

theorem digitVal_digitChar (n : ℕ) : digitVal (digitChar n) = n % 10 := by
  have h : n % 10 < 10 := Nat.mod_lt _ (by norm_num)
  rw [digitChar, digitVal]
  generalize n % 10 = k at h ⊢
  interval_cases k <;> decide

theorem daysInMonth_le_31 (y : ℤ) (m : ℕ) : daysInMonth y m ≤ 31 := by
  rw [daysInMonth]
  split
  · split <;> omega
  · split <;> omega

theorem parseRFC3339_formatInstant (t : ℤ) (hlo : -62167219200 ≤ t)
    (hhi : t ≤ 253402300799) : parseRFC3339 (formatInstant t) = some t := by
  have hdays : 86400 * (t / 86400) + t % 86400 = t ∧ 0 ≤ t % 86400 ∧ t % 86400 ≤ 86399
      ∧ -719528 ≤ t / 86400 ∧ t / 86400 ≤ 2932896 := by omega
  simp only [formatInstant]
  set days := t / 86400 with hDays
  set sod := (t % 86400).toNat with hSod
  have hsodB : sod ≤ 86399 := by omega
  have hsodZ : (sod : ℤ) = t % 86400 := by omega
  obtain ⟨⟨y, m, d⟩, hcd⟩ : ∃ p : ℤ × ℕ × ℕ, civilFromDays days = p := ⟨_, rfl⟩
  have hvalid := civilFromDays_valid days (by omega) (by omega)
  have hrt := daysFromCivil_civilFromDays days
  rw [hcd] at hvalid hrt ⊢
  simp only at hvalid hrt
  obtain ⟨hy0, hy9999, hm1, hm12, hd1, hdM⟩ := hvalid
  have hd31 : d ≤ 31 := hdM.trans (daysInMonth_le_31 y m)
  have hyN : ((y.toNat : ℤ)) = y := Int.toNat_of_nonneg hy0
  have hyB : y.toNat ≤ 9999 := by omega
  rw [if_pos ⟨hy0, by omega⟩]
  simp only [pad4, pad2, List.cons_append, List.nil_append]
  simp only [parseRFC3339]
  rw [if_pos (by simp [digitChar_isDigit])]
  simp only [digitVal_digitChar]
  have hYv : 1000 * (y.toNat / 1000 % 10) + 100 * (y.toNat / 100 % 10 % 10)
      + 10 * (y.toNat / 10 % 10 % 10) + y.toNat % 10 % 10 = y.toNat := by omega
  have hMv : 10 * (m / 10 % 10) + m % 10 % 10 = m := by omega
  have hDv : 10 * (d / 10 % 10) + d % 10 % 10 = d := by omega
  have hHv : 10 * (sod / 3600 / 10 % 10) + sod / 3600 % 10 % 10 = sod / 3600 := by omega
  have hMiv : 10 * (sod % 3600 / 60 / 10 % 10) + sod % 3600 / 60 % 10 % 10
      = sod % 3600 / 60 := by omega
  have hSv : 10 * (sod % 60 / 10 % 10) + sod % 60 % 10 % 10 = sod % 60 := by omega
  rw [hYv, hMv, hDv, hHv, hMiv, hSv]
  rw [if_pos ⟨hm1, hm12, hd1, by rw [hyN]; exact hdM, by omega, by omega, by omega⟩]
  rw [hyN, hrt]
  congr 1
  omega

/-! ## Claim theorems -/

/-- C6: for every `float64` input, including NaN and the infinities,
`ClampPercent` lands in `[0, 100]` with at most two decimal digits, and the
non-finite inputs are treated as `0`. -/
theorem c6_clampPercent_range_and_decimals (v : GoFloat) :
    0 ≤ ClampPercent v ∧ ClampPercent v ≤ 100
    ∧ (∃ n : ℤ, ClampPercent v = (n : ℚ) / 100)
    ∧ ClampPercent .nan = 0 ∧ ClampPercent .posInf = 0 ∧ ClampPercent .negInf = 0 :=
  ⟨clampPercent_nonneg v, clampPercent_le_100 v, clampPercent_two_decimals v, rfl, rfl, rfl⟩

/-- C7: when the raw used value is already in `[0, 100]`, the clamped used
percentage plus the derived remaining percentage is exactly `100`; for every
input, both derived percentages lie in `[0, 100]`. -/
theorem c7_used_remaining_sum (raw : ℚ) (h0 : 0 ≤ raw) (h1 : raw ≤ 100) :
    ClampPercent (.fin raw) + ClampPercent (.fin (100 - ClampPercent (.fin raw))) = 100
    ∧ (∀ v : GoFloat,
        0 ≤ ClampPercent v ∧ ClampPercent v ≤ 100
        ∧ 0 ≤ ClampPercent (.fin (100 - ClampPercent v))
        ∧ ClampPercent (.fin (100 - ClampPercent v)) ≤ 100) :=
  ⟨clampPercent_complement raw h0 h1,
   fun v => ⟨clampPercent_nonneg v, clampPercent_le_100 v,
     clampPercent_nonneg _, clampPercent_le_100 _⟩⟩

theorem c7_witness :
    (0 : ℚ) ≤ 371 / 8 ∧ (371 / 8 : ℚ) ≤ 100
    ∧ ClampPercent (.fin (371 / 8))
        + ClampPercent (.fin (100 - ClampPercent (.fin (371 / 8)))) = 100 :=
  ⟨by norm_num, by norm_num,
   (c7_used_remaining_sum (371 / 8) (by norm_num) (by norm_num)).1⟩

/-- C1 counterexample: the Copilot adapter reads `percent_remaining` raw; with
a raw value of `150` the stored remaining percentage is `150`, which is not
`clamp(100 - used)` (the used percentage computes to `0`, so that would be
`100`). -/
theorem c1_counterexample :
    (copilotQuotaOf 0 "user" "sku" 100 50 (.fin 150) "unknown").requestsUsedPercent = .fin 0
    ∧ (copilotQuotaOf 0 "user" "sku" 100 50 (.fin 150) "unknown").requestsRemainingPercent
        = .fin 150
    ∧ (copilotQuotaOf 0 "user" "sku" 100 50 (.fin 150) "unknown").requestsRemainingPercent
        ≠ .fin (ClampPercent (.fin (100 - 0))) := by
  have hused : (copilotQuotaOf 0 "user" "sku" 100 50 (.fin 150) "unknown").requestsUsedPercent
      = .fin (max 0 (100 - 150)) := rfl
  have hclamp : ClampPercent (.fin (100 - 0)) = 100 := by
    have harg : (100 : ℚ) - 0 = 100 := by norm_num
    rw [harg, clampPercent_of_bounds 100 (by norm_num) (by norm_num)]
    have hcast : (100 : ℚ) * 100 = ((10000 : ℤ) : ℚ) := by norm_num
    rw [hcast, goRound_int_sub 10000 (by norm_num)]
    norm_num
  refine ⟨?_, rfl, ?_⟩
  · rw [hused, max_eq_left (by norm_num : (100 : ℚ) - 150 ≤ 0)]
  · rw [hclamp]
    intro h
    have h2 : GoFloat.fin 150 = GoFloat.fin 100 := h
    injection h2 with h3
    norm_num at h3

/-- C1 amended: the Codex and Z.ai adapters derive every remaining percentage
as `clamp(100 - used)` from the already-clamped used percentage; the Copilot
adapter instead stores the raw `percent_remaining` field unchanged and derives
the used percentage from it. -/
theorem c1_remaining_derivation (now : ℤ) (w : CodexWindowSrc)
    (apiKey level : String) (limits : List ZaiLimit)
    (login sku : String) (total remaining : ℤ) (rp : GoFloat) (resetAt : String) :
    (parseWindow now w).usedPercent = some (ClampPercent w.used_percent.toFloat)
    ∧ (parseWindow now w).remainingPercent
        = some (ClampPercent (.fin (100 - ClampPercent w.used_percent.toFloat)))
    ∧ (zaiQuotaOf now apiKey level limits).tokenQuota.remainingPercent
        = ClampPercent (.fin (100 - (zaiQuotaOf now apiKey level limits).tokenQuota.usedPercent))
    ∧ (zaiQuotaOf now apiKey level limits).mcpQuota.window.remainingPercent
        = ClampPercent (.fin (100 - (zaiQuotaOf now apiKey level limits).mcpQuota.window.usedPercent))
    ∧ (copilotQuotaOf now login sku total remaining rp resetAt).requestsRemainingPercent = rp :=
  ⟨rfl, rfl, rfl, rfl, rfl⟩

/-- C3 counterexample: the Copilot adapter sends its request even with an
absent credential, and the Codex adapter sends its request for a whitespace
credential (which is empty after trimming). -/
theorem c3_counterexample :
    copilotFirstAction none = .sendRequest
    ∧ codexFirstAction (some " ") = .sendRequest := by
  refine ⟨rfl, by decide⟩

/-- C3 amended: the Codex and Z.ai adapters fail before any network step
exactly when their credential is absent or exactly empty (whitespace-only
credentials pass the adapter guard); the Copilot adapter performs no
credential check at all. -/
theorem c3_adapter_guards (key : Option String) :
    (codexFirstAction key = .failImmediately "missing Codex API key in credentials"
      ↔ (key = none ∨ key = some ""))
    ∧ (zaiFirstAction key = .failImmediately "missing Z.ai API key in credentials"
      ↔ (key = none ∨ key = some ""))
    ∧ copilotFirstAction key = .sendRequest := by
  refine ⟨?_, ?_, rfl⟩ <;>
    cases key with
    | none => simp [codexFirstAction, zaiFirstAction]
    | some k =>
      by_cases hk : k = "" <;>
        simp [codexFirstAction, zaiFirstAction, hk]

/-- C10 counterexample: for the key `"********"` the reported account
identity is exactly the raw API key. -/
theorem c10_counterexample :
    (zaiQuotaOf 0 "********" "pro" []).accountID = "********" := by decide

/-- C10 amended: the reported Z.ai account identity is always `maskToken` of
the API key — `"********"` for keys of at most 8 characters, otherwise the
first 6 characters, `"..."`, and the last 4 — though a key that already equals
its own mask (such as the literal `"********"`) is reported unchanged. -/
theorem c10_masked_identity (now : ℤ) (apiKey level : String) (limits : List ZaiLimit) :
    (zaiQuotaOf now apiKey level limits).accountID = maskToken apiKey
    ∧ (apiKey.length ≤ 8 → maskToken apiKey = "********")
    ∧ (8 < apiKey.length → maskToken apiKey
        = String.mk (apiKey.data.take 6) ++ "..."
          ++ String.mk (apiKey.data.drop (apiKey.length - 4))) := by
  refine ⟨rfl, ?_, ?_⟩
  · intro h
    rw [maskToken, if_pos h]
  · intro h
    rw [maskToken, if_neg (by omega)]

theorem c10_witness :
    8 < ("sk-abcdefghijklmnop" : String).length
    ∧ maskToken "sk-abcdefghijklmnop" = "sk-abc...mnop" := by
  refine ⟨by decide, ?_⟩
  rw [(c10_masked_identity 0 "sk-abcdefghijklmnop" "pro" []).2.2 (by decide)]
  decide

/-- C8 counterexample: a non-numeric reset time is coerced to `0` by the JSON
accessor, so the normalized timestamp is the epoch instant, not the sentinel
`"unknown"` the claim requires. -/
theorem c8_counterexample :
    unixSecondsResultToISO (.str "not-a-number") = "1970-01-01T00:00:00Z"
    ∧ unixSecondsResultToISO (.str "not-a-number") ≠ "unknown" := by
  refine ⟨by decide, by decide⟩

/-- C8 amended: absent, null, and non-finite reset times normalize to
`"unknown"`; a finite numeric input whose truncation to whole seconds lies in
the RFC3339-representable years 0–9999 renders to a canonical string that
reparses to exactly that truncated instant; but a non-numeric (unparsable)
value is coerced to `0` and yields the epoch instant rather than
`"unknown"`. -/
theorem c8_timestamp_normalization (q : ℚ)
    (hlo : -62167219200 ≤ goTrunc q) (hhi : goTrunc q ≤ 253402300799) :
    unixSecondsResultToISO .missing = "unknown"
    ∧ unixSecondsResultToISO .null = "unknown"
    ∧ UnixSecondsToISO .nan = "unknown"
    ∧ UnixSecondsToISO .posInf = "unknown"
    ∧ UnixSecondsToISO .negInf = "unknown"
    ∧ parseRFC3339 (UnixSecondsToISO (.fin q)) = some (goTrunc q) := by
  refine ⟨rfl, rfl, rfl, rfl, rfl, ?_⟩
  show parseRFC3339 (formatInstant (goTrunc q)) = some (goTrunc q)
  exact parseRFC3339_formatInstant _ hlo hhi

theorem c8_witness :
    -62167219200 ≤ goTrunc (mkRat 3400000001 2)
    ∧ goTrunc (mkRat 3400000001 2) ≤ 253402300799
    ∧ parseRFC3339 (UnixSecondsToISO (.fin (mkRat 3400000001 2)))
        = some (goTrunc (mkRat 3400000001 2)) :=
  ⟨by decide, by decide,
   (c8_timestamp_normalization (mkRat 3400000001 2) (by decide) (by decide)).2.2.2.2.2⟩

/-- C9: the relative-duration renderer returns `"unknown"` for the sentinel
or any unparsable string, `"now"` for targets at or before `now`, and
otherwise the coarse largest-unit-first breakdown `Xd Yh` / `Xh Ym` / `Xm`
with floored whole units; in particular `now+90min` renders `"1h 30m"` and
`now+2d3h` renders `"2d 3h"`. -/
theorem c9_format_time_until (now target : ℤ) (s : String)
    (hn0 : 0 ≤ now) (hn1 : now ≤ 253402100000) :
    FormatTimeUntil now "unknown" = "unknown"
    ∧ (parseRFC3339 s = none → FormatTimeUntil now s = "unknown")
    ∧ (parseRFC3339 s = some target → target ≤ now → FormatTimeUntil now s = "now")
    ∧ (parseRFC3339 s = some target → 86400 ≤ target - now →
        FormatTimeUntil now s
          = toString (((target - now) / 60).toNat / 1440) ++ "d "
            ++ toString (((target - now) / 60).toNat % 1440 / 60) ++ "h")
    ∧ (parseRFC3339 s = some target → 3600 ≤ target - now → target - now < 86400 →
        FormatTimeUntil now s
          = toString (((target - now) / 60).toNat % 1440 / 60) ++ "h "
            ++ toString (((target - now) / 60).toNat % 60) ++ "m")
    ∧ (parseRFC3339 s = some target → 0 < target - now → target - now < 3600 →
        FormatTimeUntil now s = toString (((target - now) / 60).toNat % 60) ++ "m")
    ∧ FormatTimeUntil now (formatInstant (now + 5400)) = "1h 30m"
    ∧ FormatTimeUntil now (formatInstant (now + 183600)) = "2d 3h" := by
  refine ⟨rfl, ?_, ?_, ?_, ?_, ?_, ?_, ?_⟩
  · intro hp
    simp only [FormatTimeUntil, hp]
  · intro hp hle
    simp only [FormatTimeUntil, hp]
    rw [if_pos (by omega)]
  · intro hp hday
    simp only [FormatTimeUntil, hp]
    rw [if_neg (by omega), if_pos (by omega : 0 < ((target - now) / 60).toNat / 1440)]
  · intro hp hhour hlt
    simp only [FormatTimeUntil, hp]
    rw [if_neg (by omega), if_neg (by omega : ¬ 0 < ((target - now) / 60).toNat / 1440),
      if_pos (by omega : 0 < ((target - now) / 60).toNat % 1440 / 60)]
  · intro hp hpos hlt
    simp only [FormatTimeUntil, hp]
    rw [if_neg (by omega), if_neg (by omega : ¬ 0 < ((target - now) / 60).toNat / 1440),
      if_neg (by omega : ¬ 0 < ((target - now) / 60).toNat % 1440 / 60)]
  · have hp := parseRFC3339_formatInstant (now + 5400) (by omega) (by omega)
    simp only [FormatTimeUntil, hp]
    have harith : now + 5400 - now = 5400 := by ring
    rw [harith, if_neg (by omega)]
    decide
  · have hp := parseRFC3339_formatInstant (now + 183600) (by omega) (by omega)
    simp only [FormatTimeUntil, hp]
    have harith : now + 183600 - now = 183600 := by ring
    rw [harith, if_neg (by omega)]
    decide

theorem c9_witness :
    (0 : ℤ) ≤ 0 ∧ (0 : ℤ) ≤ 253402100000
    ∧ parseRFC3339 "1970-01-02T03:00:00Z" = some 97200
    ∧ FormatTimeUntil 0 "1970-01-02T03:00:00Z" = "1d 3h"
    ∧ FormatTimeUntil 0 (formatInstant (0 + 5400)) = "1h 30m" := by
  refine ⟨le_refl 0, by decide, by decide, ?_,
    (c9_format_time_until 0 97200 "1970-01-02T03:00:00Z" (le_refl 0) (by decide)).2.2.2.2.2.2.1⟩
  rw [(c9_format_time_until 0 97200 "1970-01-02T03:00:00Z" (le_refl 0)
    (by decide)).2.2.2.1 (by decide) (by decide)]
  decide

/-- C5: with no usable credential anywhere, `run` fails with the
no-credentials error regardless of what any adapter would return (so no
adapter can influence the outcome), and the dispatched-provider set is
empty. -/
theorem c5_no_credentials (creds : Credentials)
    (r1 : Except String CopilotQuota) (r2 : Except String ZaiQuota)
    (r3 : Except String CodexQuota)
    (h1 : hasCredential creds.copilotAPIKey = false)
    (h2 : hasCredential creds.zaiAPIKey = false)
    (h3 : hasCredential creds.codexAPIKey = false) :
    run creds r1 r2 r3 = .failure "no provider credentials found in auth.json"
    ∧ dispatchedProviders creds = [] := by
  constructor
  · rw [run.eq_def]
    simp only [h1, h2, h3]
    rfl
  · rw [dispatchedProviders]
    simp only [h1, h2, h3]
    rfl

theorem c5_witness :
    hasCredential (Credentials.mk none (some "") (some "   ") none).copilotAPIKey = false
    ∧ hasCredential (Credentials.mk none (some "") (some "   ") none).zaiAPIKey = false
    ∧ hasCredential (Credentials.mk none (some "") (some "   ") none).codexAPIKey = false
    ∧ run ⟨none, some "", some "   ", none⟩ (.error "a") (.error "b") (.error "c")
        = .failure "no provider credentials found in auth.json"
    ∧ dispatchedProviders ⟨none, some "", some "   ", none⟩ = [] := by
  refine ⟨by decide, by decide, by decide, ?_, ?_⟩
  · exact (c5_no_credentials ⟨none, some "", some "   ", none⟩
      (.error "a") (.error "b") (.error "c") (by decide) (by decide) (by decide)).1
  · exact (c5_no_credentials ⟨none, some "", some "   ", none⟩
      (.error "a") (.error "b") (.error "c") (by decide) (by decide) (by decide)).2

/-- C4: whenever at least one dispatched adapter succeeds, `run` returns the
report outcome (not an error): each credentialed provider's success is
carried as its quota, and each credentialed provider's failure is carried as
a labeled warning string. -/
theorem c4_mixed_outcome_report (creds : Credentials)
    (r1 : Except String CopilotQuota) (r2 : Except String ZaiQuota)
    (r3 : Except String CodexQuota)
    (h : (hasCredential creds.copilotAPIKey = true ∧ r1.isOk = true)
      ∨ (hasCredential creds.zaiAPIKey = true ∧ r2.isOk = true)
      ∨ (hasCredential creds.codexAPIKey = true ∧ r3.isOk = true)) :
    run creds r1 r2 r3
      = .report (providerOut (hasCredential creds.copilotAPIKey) r1)
          (providerOut (hasCredential creds.zaiAPIKey) r2)
          (providerOut (hasCredential creds.codexAPIKey) r3)
          (providerWarnings "GitHub Copilot" (hasCredential creds.copilotAPIKey) r1
            ++ providerWarnings "Z.ai" (hasCredential creds.zaiAPIKey) r2
            ++ providerWarnings "OpenAI Codex" (hasCredential creds.codexAPIKey) r3) := by
  rcases h with ⟨hf, hok⟩ | ⟨hf, hok⟩ | ⟨hf, hok⟩
  · cases r1 with
    | error e => simp [Except.isOk, Except.toBool] at hok
    | ok q =>
      cases hz : hasCredential creds.zaiAPIKey <;>
        cases hx : hasCredential creds.codexAPIKey <;>
          cases r2 <;> cases r3 <;>
            simp [run, providerOut, providerWarnings, hf, hz, hx, Except.toOption]
  · cases r2 with
    | error e => simp [Except.isOk, Except.toBool] at hok
    | ok q =>
      cases hcp : hasCredential creds.copilotAPIKey <;>
        cases hx : hasCredential creds.codexAPIKey <;>
          cases r1 <;> cases r3 <;>
            simp [run, providerOut, providerWarnings, hf, hcp, hx, Except.toOption]
  · cases r3 with
    | error e => simp [Except.isOk, Except.toBool] at hok
    | ok q =>
      cases hcp : hasCredential creds.copilotAPIKey <;>
        cases hz : hasCredential creds.zaiAPIKey <;>
          cases r1 <;> cases r2 <;>
            simp [run, providerOut, providerWarnings, hf, hcp, hz, Except.toOption]

theorem c4_witness :
    (hasCredential (Credentials.mk (some "k1") (some "k2") (some "k3") none).copilotAPIKey = true
      ∧ (Except.ok (copilotQuotaOf 0 "u" "t" 100 40 (.fin 60) "unknown")
          : Except String CopilotQuota).isOk = true)
    ∧ run ⟨some "k1", some "k2", some "k3", none⟩
        (.ok (copilotQuotaOf 0 "u" "t" 100 40 (.fin 60) "unknown"))
        (.error "boom") (.error "down")
      = .report (some (copilotQuotaOf 0 "u" "t" 100 40 (.fin 60) "unknown")) none none
          ["Z.ai: boom", "OpenAI Codex: down"] := by
  refine ⟨⟨by decide, rfl⟩, ?_⟩
  rw [c4_mixed_outcome_report ⟨some "k1", some "k2", some "k3", none⟩
    (.ok (copilotQuotaOf 0 "u" "t" 100 40 (.fin 60) "unknown"))
    (.error "boom") (.error "down") (Or.inl ⟨by decide, rfl⟩)]
  have h1 : hasCredential (some "k1") = true := by decide
  have h2 : hasCredential (some "k2") = true := by decide
  have h3 : hasCredential (some "k3") = true := by decide
  show RunOutcome.report (providerOut (hasCredential (some "k1")) _)
      (providerOut (hasCredential (some "k2")) _)
      (providerOut (hasCredential (some "k3")) _) _ = _
  rw [h1, h2, h3]
  rfl

/-- C2 counterexample: when all three providers are dispatched and all fail,
the run outcome is the fixed generic error, and it is bit-for-bit identical
for entirely different per-provider failure messages — so it carries none of
them. -/
theorem c2_counterexample :
    run ⟨some "a", some "b", some "c", none⟩ (.error "copilot broke")
        (.error "zai broke") (.error "codex broke")
      = .failure "could not fetch quota data from any provider"
    ∧ run ⟨some "a", some "b", some "c", none⟩ (.error "copilot broke")
        (.error "zai broke") (.error "codex broke")
      = run ⟨some "a", some "b", some "c", none⟩ (.error "x") (.error "y") (.error "z") := by
  refine ⟨by decide, by decide⟩

/-- C2 amended: when at least one provider is dispatched and every dispatched
provider fails, `run` returns the fixed all-providers-failed error message,
which is distinct from the no-credentials error but does not include the
individual per-provider failure messages (those are discarded). -/
theorem c2_all_failed (creds : Credentials)
    (r1 : Except String CopilotQuota) (r2 : Except String ZaiQuota)
    (r3 : Except String CodexQuota)
    (hsome : hasCredential creds.copilotAPIKey = true
      ∨ hasCredential creds.zaiAPIKey = true
      ∨ hasCredential creds.codexAPIKey = true)
    (hf1 : hasCredential creds.copilotAPIKey = true → r1.isOk = false)
    (hf2 : hasCredential creds.zaiAPIKey = true → r2.isOk = false)
    (hf3 : hasCredential creds.codexAPIKey = true → r3.isOk = false) :
    run creds r1 r2 r3 = .failure "could not fetch quota data from any provider"
    ∧ "could not fetch quota data from any provider"
        ≠ "no provider credentials found in auth.json" := by
  refine ⟨?_, by decide⟩
  have ho1 : (if hasCredential creds.copilotAPIKey then r1.toOption else none) = none := by
    cases hc : hasCredential creds.copilotAPIKey with
    | false => simp
    | true =>
      cases r1 with
      | error e => simp [Except.toOption]
      | ok q => simp [Except.isOk, Except.toBool] at hf1; exact absurd hc (by simpa using hf1)
  have ho2 : (if hasCredential creds.zaiAPIKey then r2.toOption else none) = none := by
    cases hc : hasCredential creds.zaiAPIKey with
    | false => simp
    | true =>
      cases r2 with
      | error e => simp [Except.toOption]
      | ok q => simp [Except.isOk, Except.toBool] at hf2; exact absurd hc (by simpa using hf2)
  have ho3 : (if hasCredential creds.codexAPIKey then r3.toOption else none) = none := by
    cases hc : hasCredential creds.codexAPIKey with
    | false => simp
    | true =>
      cases r3 with
      | error e => simp [Except.toOption]
      | ok q => simp [Except.isOk, Except.toBool] at hf3; exact absurd hc (by simpa using hf3)
  rw [run.eq_def]
  rw [if_neg (by rcases hsome with h | h | h <;> simp [h])]
  simp only [ho1, ho2, ho3]
  rfl

theorem c2_witness :
    hasCredential (Credentials.mk (some "tok") none none none).copilotAPIKey = true
    ∧ run ⟨some "tok", none, none, none⟩ (.error "boom") (.error "x") (.error "y")
        = .failure "could not fetch quota data from any provider" := by
  refine ⟨by decide, ?_⟩
  exact (c2_all_failed ⟨some "tok", none, none, none⟩ (.error "boom") (.error "x") (.error "y")
    (Or.inl (by decide)) (fun _ => rfl) (fun _ => rfl) (fun _ => rfl)).1
